import Mathlib

/-
Shallow embedding of the Diato music-analysis core:
  src/src/music/types.ts  (Note, Mode, Chord, Key)
  src/src/music/keys.ts   (ALLOWED_KEYS, tonic orders, accessors)
  src/src/music/logic.ts  (buildScale, buildDiatonicChords, getAllKeys,
                           buildAllTriads, findMatchingKeys)
Notes are strings, exactly as in types.ts (`export type Note = string`).
The flat-sign spelling is copied byte-for-byte from keys.ts.
-/

namespace Diato

/-- Musical mode, from types.ts: Ionian (major) or Aeolian (natural minor). -/
inductive Mode where
  | Ionian
  | Aeolian
deriving DecidableEq

/-- Triad quality, from types.ts: major, minor or diminished. -/
inductive Quality where
  | major
  | minor
  | diminished
deriving DecidableEq

/-- A note spelling; types.ts declares `export type Note = string`. -/
abbrev Note := String

/-- A diatonic triad, from types.ts: root spelling, mode of the key it was
derived from, 1-based scale degree, and quality. -/
structure Chord where
  root : Note
  mode : Mode
  degree : Nat
  quality : Quality
deriving DecidableEq

/-- A key, from types.ts: tonic, mode, and an optional explicit 7-note scale. -/
structure Key where
  tonic : Note
  mode : Mode
  scale : Option (List Note) := none
deriving DecidableEq

/-- The explicit table of 24 valid diatonic keys, from keys.ts `ALLOWED_KEYS`.
The flat spellings are copied verbatim from the source file. -/
def ALLOWED_KEYS : List Key := [
  -- Major (Ionian) keys
  { tonic := "C",  mode := .Ionian, scale := some ["C", "D", "E", "F", "G", "A", "B"] },
  { tonic := "G",  mode := .Ionian, scale := some ["G", "A", "B", "C", "D", "E", "F#"] },
  { tonic := "D",  mode := .Ionian, scale := some ["D", "E", "F#", "G", "A", "B", "C#"] },
  { tonic := "A",  mode := .Ionian, scale := some ["A", "B", "C#", "D", "E", "F#", "G#"] },
  { tonic := "E",  mode := .Ionian, scale := some ["E", "F#", "G#", "A", "B", "C#", "D#"] },
  { tonic := "B",  mode := .Ionian, scale := some ["B", "C#", "D#", "E", "F#", "G#", "A#"] },
  { tonic := "F#", mode := .Ionian, scale := some ["F#", "G#", "A#", "B", "C#", "D#", "E#"] },
  { tonic := "C#", mode := .Ionian, scale := some ["C#", "D#", "E#", "F#", "G#", "A#", "B#"] },
  { tonic := "F",  mode := .Ionian, scale := some ["F", "G", "A", "Bظآص", "C", "D", "E"] },
  { tonic := "Bظآص", mode := .Ionian, scale := some ["Bظآص", "C", "D", "Eظآص", "F", "G", "A"] },
  { tonic := "Eظآص", mode := .Ionian, scale := some ["Eظآص", "F", "G", "Aظآص", "Bظآص", "C", "D"] },
  { tonic := "Aظآص", mode := .Ionian, scale := some ["Aظآص", "Bظآص", "C", "Dظآص", "Eظآص", "F", "G"] },
  -- Minor (Aeolian) keys
  { tonic := "A",  mode := .Aeolian, scale := some ["A", "B", "C", "D", "E", "F", "G"] },
  { tonic := "E",  mode := .Aeolian, scale := some ["E", "F#", "G", "A", "B", "C", "D"] },
  { tonic := "B",  mode := .Aeolian, scale := some ["B", "C#", "D", "E", "F#", "G", "A"] },
  { tonic := "F#", mode := .Aeolian, scale := some ["F#", "G#", "A", "B", "C#", "D", "E"] },
  { tonic := "C#", mode := .Aeolian, scale := some ["C#", "D#", "E", "F#", "G#", "A", "B"] },
  { tonic := "G#", mode := .Aeolian, scale := some ["G#", "A#", "B", "C#", "D#", "E", "F#"] },
  { tonic := "D#", mode := .Aeolian, scale := some ["D#", "E#", "F#", "G#", "A#", "B", "C#"] },
  { tonic := "A#", mode := .Aeolian, scale := some ["A#", "B#", "C#", "D#", "E#", "F#", "G#"] },
  { tonic := "D",  mode := .Aeolian, scale := some ["D", "E", "F", "G", "A", "Bظآص", "C"] },
  { tonic := "G",  mode := .Aeolian, scale := some ["G", "A", "Bظآص", "C", "D", "Eظآص", "F"] },
  { tonic := "C",  mode := .Aeolian, scale := some ["C", "D", "Eظآص", "F", "G", "Aظآص", "Bظآص"] },
  { tonic := "F",  mode := .Aeolian, scale := some ["F", "G", "Aظآص", "Bظآص", "C", "Dظآص", "Eظآص"] }
]

/-- keys.ts `getAllAllowedKeys`: returns (a copy of) the allowed-keys table. -/
def getAllAllowedKeys : List Key := ALLOWED_KEYS

/-- keys.ts `MAJOR_TONICS_ORDER`: tonics of the major keys in circle-of-fifths
order for UI selection. -/
def MAJOR_TONICS_ORDER : List Note :=
  ["C", "G", "D", "A", "E", "B", "F#", "C#", "Aظآص", "Eظآص", "Bظآص", "F"]

/-- keys.ts `MINOR_TONICS_ORDER`: tonics of the minor keys in circle-of-fifths
order for UI selection. -/
def MINOR_TONICS_ORDER : List Note :=
  ["A", "E", "B", "F#", "C#", "G#", "D#", "A#", "F", "C", "G", "D"]

/-- keys.ts `getMajorTonics`. -/
def getMajorTonics : List Note := MAJOR_TONICS_ORDER

/-- keys.ts `getMinorTonics`. -/
def getMinorTonics : List Note := MINOR_TONICS_ORDER

/-- logic.ts `buildScale`: look up the allowed key with this tonic and mode and
return its scale; returns the empty list when the pair is not in the table (or
the found key carries no scale). -/
def buildScale (tonic : Note) (mode : Mode) : List Note :=
  match getAllAllowedKeys.find? (fun k => decide (k.tonic = tonic ∧ k.mode = mode)) with
  | some found => found.scale.getD []
  | none => []

/-- The fixed quality pattern by mode, the `qualities` local of
logic.ts `buildDiatonicChords`. -/
def qualities (mode : Mode) : List Quality :=
  match mode with
  | .Ionian => [.major, .minor, .minor, .major, .major, .minor, .diminished]
  | .Aeolian => [.minor, .diminished, .major, .minor, .minor, .major, .major]

/-- logic.ts `buildDiatonicChords`: use the explicit scale of the key when it
has length 7, otherwise fall back to `buildScale` on the tonic and mode; then
map each scale note to a triad with the fixed quality pattern. -/
def buildDiatonicChords (key : Key) : List Chord :=
  let scale : List Note :=
    match key.scale with
    | some s => if s.length = 7 then s else buildScale key.tonic key.mode
    | none => buildScale key.tonic key.mode
  (scale.enum).map (fun p =>
    { root := p.2, mode := key.mode, degree := p.1 + 1,
      quality := (qualities key.mode).getD p.1 .major })

/-- logic.ts `getAllKeys`: the explicit list of allowed keys (24 keys). -/
def getAllKeys : List Key := getAllAllowedKeys

/-- logic.ts `buildAllTriads`: 12 major triads (degree I of each allowed major
key, in `getMajorTonics` order), then 12 minor triads (degree I of each allowed
minor key, in `getMinorTonics` order), then 12 diminished triads (degree VII of
each allowed major key, in `getMajorTonics` order). A tonic whose key is absent
from the table, or whose key has no scale, is skipped, as in the source. -/
def buildAllTriads : List Chord :=
  (getMajorTonics.filterMap (fun tonic =>
    (getAllAllowedKeys.find? (fun k => decide (k.tonic = tonic ∧ k.mode = .Ionian))).bind
      (fun key => key.scale.map (fun s =>
        { root := s.headD "", mode := Mode.Ionian, degree := 1, quality := Quality.major }))))
  ++
  (getMinorTonics.filterMap (fun tonic =>
    (getAllAllowedKeys.find? (fun k => decide (k.tonic = tonic ∧ k.mode = .Aeolian))).bind
      (fun key => key.scale.map (fun s =>
        { root := s.headD "", mode := Mode.Aeolian, degree := 1, quality := Quality.minor }))))
  ++
  (getMajorTonics.filterMap (fun tonic =>
    (getAllAllowedKeys.find? (fun k => decide (k.tonic = tonic ∧ k.mode = .Ionian))).bind
      (fun key => key.scale.map (fun s =>
        { root := s.getD 6 "", mode := Mode.Ionian, degree := 7, quality := Quality.diminished }))))

/-- The result pair of logic.ts `findMatchingKeys`: a matching key together
with its available chords. -/
structure MatchResult where
  key : Key
  availableChords : List Chord
deriving DecidableEq

/-- logic.ts `findMatchingKeys`: keep every allowed key whose diatonic triads
contain, for each selected chord, a chord with the same root and the same triad
quality; pair each kept key with its full diatonic list. The source maps keys
to a result or null and filters out the nulls, which is `List.filterMap`. -/
def findMatchingKeys (selectedChords : List Chord) : List MatchResult :=
  getAllKeys.filterMap (fun key =>
    let diatonic := buildDiatonicChords key
    let matched := selectedChords.all (fun sel =>
      diatonic.any (fun chord => decide (chord.root = sel.root ∧ chord.quality = sel.quality)))
    if matched then some { key := key, availableChords := diatonic } else none)

end Diato

namespace Diato

/-- The C major triad as the app selects it: degree I of the key of C Ionian. -/
def cMajorTriad : Chord := { root := "C", mode := .Ionian, degree := 1, quality := .major }

/-- The A sharp minor triad as `buildAllTriads` offers it: degree I of the key
of A sharp Aeolian. -/
def aSharpMinorTriad : Chord := { root := "A#", mode := .Aeolian, degree := 1, quality := .minor }

/-- The B flat minor triad: degree II of the key of A flat Ionian, with the
flat spelling copied verbatim from keys.ts. -/
def bFlatMinorChord : Chord := { root := "Bظآص", mode := .Ionian, degree := 2, quality := .minor }

/-- The key of C Ionian, as in the `ALLOWED_KEYS` table. -/
def cIonianKey : Key :=
  { tonic := "C", mode := .Ionian, scale := some ["C", "D", "E", "F", "G", "A", "B"] }

/-- The key of G Ionian, as in the `ALLOWED_KEYS` table. -/
def gIonianKey : Key :=
  { tonic := "G", mode := .Ionian, scale := some ["G", "A", "B", "C", "D", "E", "F#"] }

/-- The key of F Ionian, as in the `ALLOWED_KEYS` table. -/
def fIonianKey : Key :=
  { tonic := "F", mode := .Ionian, scale := some ["F", "G", "A", "Bظآص", "C", "D", "E"] }

/-- The key of A flat Ionian, as in the `ALLOWED_KEYS` table. -/
def abIonianKey : Key :=
  { tonic := "Aظآص", mode := .Ionian, scale := some ["Aظآص", "Bظآص", "C", "Dظآص", "Eظآص", "F", "G"] }

/-- The key of A Aeolian, as in the `ALLOWED_KEYS` table. -/
def aAeolianKey : Key :=
  { tonic := "A", mode := .Aeolian, scale := some ["A", "B", "C", "D", "E", "F", "G"] }

/-- The key of E Aeolian, as in the `ALLOWED_KEYS` table. -/
def eAeolianKey : Key :=
  { tonic := "E", mode := .Aeolian, scale := some ["E", "F#", "G", "A", "B", "C", "D"] }

/-- The key of D Aeolian, as in the `ALLOWED_KEYS` table. -/
def dAeolianKey : Key :=
  { tonic := "D", mode := .Aeolian, scale := some ["D", "E", "F", "G", "A", "Bظآص", "C"] }

/-- A key value whose explicit scale is malformed (length 1, not 7). -/
def malformedKey : Key := { tonic := "C", mode := .Ionian, scale := some ["C"] }

/-- The first result returned for the empty selection: the key of C Ionian
with its full diatonic list. -/
def cIonianResult : MatchResult :=
  { key := cIonianKey, availableChords := buildDiatonicChords cIonianKey }

/-- Modelled from the spec: the source under src has no pitch-class function;
`findMatchingKeys` compares root spellings directly. Spec section 3 describes a
Note as a chromatic pitch class where enharmonic spellings denote the same
audible pitch, and pitch-class identity is what matching uses. This maps each
note spelling occurring in the key table to its chromatic pitch class 0..11,
so that enharmonically equal spellings receive equal pitch classes. -/
def pitchClassOf (n : Note) : Option Nat :=
  match n with
  | "C" => some 0
  | "B#" => some 0
  | "C#" => some 1
  | "Dظآص" => some 1
  | "D" => some 2
  | "D#" => some 3
  | "Eظآص" => some 3
  | "E" => some 4
  | "E#" => some 5
  | "F" => some 5
  | "F#" => some 6
  | "G" => some 7
  | "G#" => some 8
  | "Aظآص" => some 8
  | "A" => some 9
  | "A#" => some 10
  | "Bظآص" => some 10
  | "B" => some 11
  | _ => none

/-- Unfolding of `buildDiatonicChords` with its local let bindings expanded. -/
theorem buildDiatonicChords_def (k : Key) :
    buildDiatonicChords k =
      ((match k.scale with
        | some s => if s.length = 7 then s else buildScale k.tonic k.mode
        | none => buildScale k.tonic k.mode).enum).map (fun (p : Nat × Note) =>
          { root := p.2, mode := k.mode, degree := p.1 + 1,
            quality := (qualities k.mode).getD p.1 .major }) := rfl

/-- A key of the table appears among the keys returned by `findMatchingKeys`
exactly when each selected chord has, among the diatonic chords of that key, a
chord with the same root spelling and the same quality. -/
theorem key_mem_findMatchingKeys (sel : List Chord) (key : Key) (hk : key ∈ getAllKeys) :
    key ∈ (findMatchingKeys sel).map MatchResult.key ↔
      ∀ c ∈ sel, ∃ d ∈ buildDiatonicChords key,
        d.root = c.root ∧ d.quality = c.quality := by
  constructor
  · intro h
    rw [List.mem_map] at h
    obtain ⟨r, hr, hrk⟩ := h
    rw [findMatchingKeys, List.mem_filterMap] at hr
    obtain ⟨a, _, hfa⟩ := hr
    dsimp only at hfa
    split at hfa
    case isTrue hcond =>
      rw [Option.some.injEq] at hfa
      subst hfa
      have ha : a = key := hrk
      subst ha
      intro c hc
      rw [List.all_eq_true] at hcond
      have hany := hcond c hc
      rw [List.any_eq_true] at hany
      obtain ⟨d, hd, hdp⟩ := hany
      exact ⟨d, hd, of_decide_eq_true hdp⟩
    case isFalse => cases hfa
  · intro h
    rw [List.mem_map]
    refine ⟨{ key := key, availableChords := buildDiatonicChords key }, ?_, rfl⟩
    rw [findMatchingKeys, List.mem_filterMap]
    refine ⟨key, hk, ?_⟩
    dsimp only
    rw [if_pos]
    rw [List.all_eq_true]
    intro c hc
    rw [List.any_eq_true]
    obtain ⟨d, hd, hdr, hdq⟩ := h c hc
    exact ⟨d, hd, decide_eq_true ⟨hdr, hdq⟩⟩

end Diato
namespace Diato

/-- C1: for every selection and every key returned by `getAllKeys`, the key
appears in the result of `findMatchingKeys` on that selection if and only if
every chord of the selection has some diatonic chord of that key, per
`buildDiatonicChords`, with equal root and equal quality; the degree and mode
fields of the selected chord are not constrained. -/
theorem C1_match_iff_root_quality (sel : List Chord) (key : Key) (hk : key ∈ getAllKeys) :
    key ∈ (findMatchingKeys sel).map MatchResult.key ↔
      ∀ c ∈ sel, ∃ d ∈ buildDiatonicChords key,
        d.root = c.root ∧ d.quality = c.quality :=
  key_mem_findMatchingKeys sel key hk

/-- Witness for C1 at the singleton selection of the C major triad and the key
of C Ionian. -/
theorem C1_witness :
    cIonianKey ∈ getAllKeys ∧
    (cIonianKey ∈ (findMatchingKeys [cMajorTriad]).map MatchResult.key ↔
      ∀ c ∈ [cMajorTriad], ∃ d ∈ buildDiatonicChords cIonianKey,
        d.root = c.root ∧ d.quality = c.quality) :=
  ⟨by decide, C1_match_iff_root_quality [cMajorTriad] cIonianKey (by decide)⟩

/-- C2, counterexample to the claim as stated: the key of A flat Ionian has a
diatonic chord, the B flat minor triad, whose quality equals that of the
selectable A sharp minor triad and whose root denotes the same audible pitch
class (pitch class 10) under a different spelling, yet `findMatchingKeys` on
the A sharp minor selection does not return the key of A flat Ionian, because
the code compares root spellings for exact equality. -/
theorem C2_counterexample :
    bFlatMinorChord ∈ buildDiatonicChords abIonianKey ∧
    bFlatMinorChord.quality = aSharpMinorTriad.quality ∧
    pitchClassOf bFlatMinorChord.root = some 10 ∧
    pitchClassOf aSharpMinorTriad.root = some 10 ∧
    bFlatMinorChord.root ≠ aSharpMinorTriad.root ∧
    abIonianKey ∈ getAllKeys ∧
    aSharpMinorTriad ∈ buildAllTriads ∧
    abIonianKey ∉ (findMatchingKeys [aSharpMinorTriad]).map MatchResult.key := by
  decide

/-- C2 as amended: matching uses spelling identity, not pitch-class identity.
A selected chord is recognized as present in a key of the table exactly when
the key has a diatonic chord whose root spelling is identical to the root of
the selected chord and whose quality is equal; an enharmonically equal but
differently spelled root does not match. -/
theorem C2_amended_spelling_match (c : Chord) (key : Key) (hk : key ∈ getAllKeys) :
    key ∈ (findMatchingKeys [c]).map MatchResult.key ↔
      ∃ d ∈ buildDiatonicChords key, d.root = c.root ∧ d.quality = c.quality := by
  rw [key_mem_findMatchingKeys _ _ hk, List.forall_mem_singleton]

/-- Witness for the amended C2 at the C major triad and the key of F Ionian. -/
theorem C2_witness :
    fIonianKey ∈ getAllKeys ∧
    (fIonianKey ∈ (findMatchingKeys [cMajorTriad]).map MatchResult.key ↔
      ∃ d ∈ buildDiatonicChords fIonianKey,
        d.root = cMajorTriad.root ∧ d.quality = cMajorTriad.quality) :=
  ⟨by decide, C2_amended_spelling_match cMajorTriad fIonianKey (by decide)⟩

/-- C3: on the empty selection, `findMatchingKeys` returns one result per key
of the table, in table order, each carrying the full diatonic list of the key;
there are exactly 24 results and every result holds 7 available chords. -/
theorem C3_empty_selection :
    findMatchingKeys [] =
      getAllKeys.map (fun k => { key := k, availableChords := buildDiatonicChords k }) ∧
    (findMatchingKeys []).length = 24 ∧
    (findMatchingKeys []).map (fun r => r.availableChords.length) =
      List.replicate 24 7 := by
  decide

/-- C4: every result of `findMatchingKeys`, for any selection, carries as its
available chords exactly the full diatonic list of its key as produced by
`buildDiatonicChords`; the selected chords are not subtracted. -/
theorem C4_availableChords_full (sel : List Chord) (r : MatchResult)
    (hr : r ∈ findMatchingKeys sel) :
    r.availableChords = buildDiatonicChords r.key := by
  rw [findMatchingKeys, List.mem_filterMap] at hr
  obtain ⟨a, _, hfa⟩ := hr
  dsimp only at hfa
  split at hfa
  · rw [Option.some.injEq] at hfa
    subst hfa
    rfl
  · cases hfa

/-- Witness for C4 at the empty selection and the first returned result. -/
theorem C4_witness :
    cIonianResult ∈ findMatchingKeys [] ∧
    cIonianResult.availableChords = buildDiatonicChords cIonianResult.key :=
  ⟨by decide, C4_availableChords_full [] cIonianResult (by decide)⟩

/-- C5, counterexample to the claim as stated: the result for the selection of
the C major triad does include an Aeolian key, namely the key of A Aeolian, in
whose diatonic set the C major triad sits at degree III. -/
theorem C5_counterexample :
    aAeolianKey ∈ (findMatchingKeys [cMajorTriad]).map MatchResult.key ∧
    aAeolianKey.mode = Mode.Aeolian := by
  decide

/-- C5 as amended: the result for the selection of the C major triad includes
the keys of C Ionian, F Ionian and G Ionian, and its keys are exactly C
Ionian, G Ionian, F Ionian, A Aeolian, E Aeolian and D Aeolian in table order;
Aeolian keys are therefore included, contrary to the original claim. -/
theorem C5_amended_cmajor_results :
    (findMatchingKeys [cMajorTriad]).map MatchResult.key =
      [cIonianKey, gIonianKey, fIonianKey, aAeolianKey, eAeolianKey, dAeolianKey] := by
  decide

/-- C6, counterexample to the claim as stated: on a key whose explicit scale
has length 1, `buildDiatonicChords` does not return the empty list; it falls
back to the table scale for the tonic and mode and returns 7 chords. -/
theorem C6_counterexample :
    malformedKey.scale = some ["C"] ∧
    buildDiatonicChords malformedKey ≠ [] ∧
    (buildDiatonicChords malformedKey).length = 7 := by
  decide

/-- C6 as amended: for a key whose scale field does not hold exactly 7 notes,
`buildDiatonicChords` behaves as if the scale field were absent, substituting
the canonical scale that `buildScale` looks up in the allowed-keys table for
the tonic and mode; the result is empty exactly when that lookup is empty,
that is, when the tonic and mode pair is not an allowed key. -/
theorem C6_amended_fallback (key : Key) (h : key.scale.map List.length ≠ some 7) :
    buildDiatonicChords key =
      buildDiatonicChords { tonic := key.tonic, mode := key.mode, scale := none } ∧
    (buildDiatonicChords key = [] ↔ buildScale key.tonic key.mode = []) := by
  have hscale : (match key.scale with
      | some s => if s.length = 7 then s else buildScale key.tonic key.mode
      | none => buildScale key.tonic key.mode) = buildScale key.tonic key.mode := by
    cases hsc : key.scale with
    | none => rfl
    | some s =>
      show (if s.length = 7 then s else buildScale key.tonic key.mode) =
        buildScale key.tonic key.mode
      rw [if_neg]
      intro hlen
      exact h (by rw [hsc, Option.map_some', hlen])
  constructor
  · rw [buildDiatonicChords_def, buildDiatonicChords_def, hscale]
  · rw [buildDiatonicChords_def, hscale]
    rw [List.map_eq_nil_iff, List.enum_eq_nil]

/-- Witness for the amended C6 at the key with the length-1 scale. -/
theorem C6_witness :
    malformedKey.scale.map List.length ≠ some 7 ∧
    (buildDiatonicChords malformedKey =
       buildDiatonicChords { tonic := malformedKey.tonic, mode := malformedKey.mode, scale := none } ∧
     (buildDiatonicChords malformedKey = [] ↔
       buildScale malformedKey.tonic malformedKey.mode = [])) :=
  ⟨by decide, C6_amended_fallback malformedKey (by decide)⟩

/-- C7: for each key of the table, `buildDiatonicChords` returns exactly 7
chords; the chord at 0-based position i has root scale i, degree i plus 1,
the mode of the key, and the quality given by the fixed pattern of the mode:
Ionian major, minor, minor, major, major, minor, diminished and Aeolian minor,
diminished, major, minor, minor, major, major. -/
theorem C7_diatonic_shape (key : Key) (hk : key ∈ getAllKeys) :
    (buildDiatonicChords key).length = 7 ∧
    (buildDiatonicChords key).map Chord.root = key.scale.getD [] ∧
    (buildDiatonicChords key).map Chord.degree = [1, 2, 3, 4, 5, 6, 7] ∧
    (buildDiatonicChords key).map Chord.mode = List.replicate 7 key.mode ∧
    (buildDiatonicChords key).map Chord.quality =
      (if key.mode = Mode.Ionian
        then [Quality.major, Quality.minor, Quality.minor, Quality.major,
              Quality.major, Quality.minor, Quality.diminished]
        else [Quality.minor, Quality.diminished, Quality.major, Quality.minor,
              Quality.minor, Quality.major, Quality.major]) := by
  fin_cases hk <;> decide

/-- Witness for C7 at the key of C Ionian. -/
theorem C7_witness :
    cIonianKey ∈ getAllKeys ∧
    ((buildDiatonicChords cIonianKey).length = 7 ∧
     (buildDiatonicChords cIonianKey).map Chord.root = cIonianKey.scale.getD [] ∧
     (buildDiatonicChords cIonianKey).map Chord.degree = [1, 2, 3, 4, 5, 6, 7] ∧
     (buildDiatonicChords cIonianKey).map Chord.mode = List.replicate 7 cIonianKey.mode ∧
     (buildDiatonicChords cIonianKey).map Chord.quality =
       (if cIonianKey.mode = Mode.Ionian
         then [Quality.major, Quality.minor, Quality.minor, Quality.major,
               Quality.major, Quality.minor, Quality.diminished]
         else [Quality.minor, Quality.diminished, Quality.major, Quality.minor,
               Quality.minor, Quality.major, Quality.major])) :=
  ⟨by decide, C7_diatonic_shape cIonianKey (by decide)⟩

/-- C8: `buildAllTriads` returns exactly 36 chords, laid out as the degree I
chords of the 12 Ionian keys in the fixed major-tonic order, then the degree I
chords of the 12 Aeolian keys in the fixed minor-tonic order, then the degree
VII chords of the 12 Ionian keys in the fixed major-tonic order, and within
each quality no two chords share a root. -/
theorem C8_buildAllTriads :
    buildAllTriads.length = 36 ∧
    buildAllTriads =
      (getMajorTonics.filterMap (fun t =>
        (getAllKeys.find? (fun k => decide (k.tonic = t ∧ k.mode = .Ionian))).bind
          (fun k => (buildDiatonicChords k)[0]?)))
      ++ (getMinorTonics.filterMap (fun t =>
        (getAllKeys.find? (fun k => decide (k.tonic = t ∧ k.mode = .Aeolian))).bind
          (fun k => (buildDiatonicChords k)[0]?)))
      ++ (getMajorTonics.filterMap (fun t =>
        (getAllKeys.find? (fun k => decide (k.tonic = t ∧ k.mode = .Ionian))).bind
          (fun k => (buildDiatonicChords k)[6]?))) ∧
    ((buildAllTriads.filter (fun c => decide (c.quality = .major))).map Chord.root).Nodup ∧
    ((buildAllTriads.filter (fun c => decide (c.quality = .minor))).map Chord.root).Nodup ∧
    ((buildAllTriads.filter (fun c => decide (c.quality = .diminished))).map Chord.root).Nodup := by
  decide

/-- C9: for every key of the table and every chord of its diatonic list, the
result of `findMatchingKeys` on the singleton selection of that chord includes
the originating key. -/
theorem C9_roundtrip (key : Key) (hk : key ∈ getAllKeys) (c : Chord)
    (hc : c ∈ buildDiatonicChords key) :
    key ∈ (findMatchingKeys [c]).map MatchResult.key := by
  rw [key_mem_findMatchingKeys _ _ hk]
  intro x hx
  rw [List.mem_singleton] at hx
  rw [hx]
  exact ⟨c, hc, rfl, rfl⟩

/-- Witness for C9 at the key of C Ionian and its degree I chord. -/
theorem C9_witness :
    cIonianKey ∈ getAllKeys ∧
    cMajorTriad ∈ buildDiatonicChords cIonianKey ∧
    cIonianKey ∈ (findMatchingKeys [cMajorTriad]).map MatchResult.key :=
  ⟨by decide, by decide, C9_roundtrip cIonianKey (by decide) cMajorTriad (by decide)⟩

/-- C10: for every key of the table, the first chord of its diatonic list is
rooted at the tonic of the key, and the canonical scale of the key begins with
the tonic. -/
theorem C10_first_chord_tonic (key : Key) (hk : key ∈ getAllKeys) :
    ((buildDiatonicChords key).head?).map Chord.root = some key.tonic ∧
    key.scale.bind List.head? = some key.tonic := by
  fin_cases hk <;> decide

/-- Witness for C10 at the key of D Aeolian. -/
theorem C10_witness :
    dAeolianKey ∈ getAllKeys ∧
    (((buildDiatonicChords dAeolianKey).head?).map Chord.root = some dAeolianKey.tonic ∧
     dAeolianKey.scale.bind List.head? = some dAeolianKey.tonic) :=
  ⟨by decide, C10_first_chord_tonic dAeolianKey (by decide)⟩

end Diato
